import Mathlib

/-
Shallow embedding of the jsapi binding layer (jsapi.go) and proofs about it.

The Go source has two halves:
  * a reflection-driven dynamic-dispatch half (cast, Func.call, Func.Call,
    prop.get, prop.set) that manipulates reflect.Value / reflect.Type data
    supplied by the Go runtime, and
  * a lifecycle half (Context, the live-context registry, Destroy, the
    engine callbacks callback/getprop/setprop, the define operations and
    Context.do) that manages engine state.

The dispatch half is embedded parametrically over an abstract reflection
layer (structure Reflect): kinds, assignability, convertibility, conversion,
pointer indirection and the JSON codec are external library behaviour
(package reflect and encoding/json), so they appear as data, and the Go
control flow of each function is translated literally over them.  A small
concrete instance (SimpleTy / SimpleVal / simpleR) is provided so that every
theorem can be evaluated on concrete inputs.

The lifecycle half is embedded with explicit state records (Context, Object,
World) and outcome types that make Go panics explicit values
(DoOutcome.panicked); engine primitives (JSAPI_Eval, JSAPI_DefineFunction,
...) are external, so their success or failure is a boolean parameter and
the work they would receive is recorded in a list of EngineOp values.
-/

namespace Jsapi

set_option autoImplicit false

universe u v

/-! ## Association lists, modelling Go maps (first binding wins on lookup) -/

def lookupA {κ : Type u} {α : Type v} [DecidableEq κ] (k : κ) : List (κ × α) → Option α
  | [] => none
  | e :: rest => if e.1 = k then some e.2 else lookupA k rest

/-- Embeds Go `delete(m, k)`. -/
def eraseA {κ : Type u} {α : Type v} [DecidableEq κ] (k : κ) : List (κ × α) → List (κ × α)
  | [] => []
  | e :: rest => if e.1 = k then eraseA k rest else e :: eraseA k rest

/-- Embeds Go `m[k] = v` (replace an existing binding or add one). -/
def insertA {κ : Type u} {α : Type v} [DecidableEq κ] (k : κ) (v : α) : List (κ × α) → List (κ × α)
  | [] => [(k, v)]
  | e :: rest => if e.1 = k then (k, v) :: rest else e :: insertA k v rest

/-! ## Go reflection kinds -/

/-- The reflect.Kind values that jsapi.go inspects. -/
inductive GoKind where
  | Bool | Int | Int8 | Int16 | Int32 | Int64
  | Uint | Uint8 | Uint16 | Uint32 | Uint64
  | Float32 | Float64 | Interface | Map | Slice | String
  | Ptr | Struct | Func | Chan | UnsafePointer
  deriving DecidableEq

/-- The abstract reflection / JSON layer the dispatch half of jsapi.go is
written against.  `Ty` stands for reflect.Type, `Val` for reflect.Value
(equivalently a Go interface value).  All fields are behaviour of the Go
runtime and standard library, external to the repository. -/
structure Reflect (Ty : Type u) (Val : Type v) where
  /-- t.Kind() -/
  kind : Ty → GoKind
  /-- v.Type() -/
  typeOf : Val → Ty
  /-- a.AssignableTo(b) -/
  assignableTo : Ty → Ty → Bool
  /-- a.ConvertibleTo(b) -/
  convertibleTo : Ty → Ty → Bool
  /-- reflect.Indirect(v): the pointee for a pointer value, v itself otherwise -/
  indirect : Val → Val
  /-- v.Convert(t) -/
  convert : Val → Ty → Val
  /-- t.Elem() (used on the trailing variadic slice type) -/
  elem : Ty → Ty
  /-- the %s rendering of a reflect.Kind -/
  kindString : GoKind → String
  /-- json.Marshal of one interface value -/
  marshal : Val → Except String String
  /-- json.Unmarshal of a JSON document into []interface values -/
  unmarshalArgs : String → Except String (List Val)
  /-- json.Unmarshal of a JSON document into one interface value -/
  unmarshalVal : String → Except String Val

variable {Ty : Type u} {Val : Type v}

/-! ## cast (jsapi.go:523-534) -/

/-- The pointer-indirection step at the head of `cast` (jsapi.go:524-526):
if v is a pointer value and the target type is not a pointer type,
dereference v first. -/
def castDeref (R : Reflect Ty Val) (v : Val) (t : Ty) : Val :=
  if R.kind (R.typeOf v) = GoKind.Ptr ∧ R.kind t ≠ GoKind.Ptr then R.indirect v else v

/-- Embeds `func cast(v reflect.Value, t reflect.Type) (reflect.Value, error)`
(jsapi.go:523-534).  The Go function returns the (possibly dereferenced or
converted) value together with a possible error; the value component is
meaningful even in the error case, which matters because prop.set ignores
the error component. -/
def cast (R : Reflect Ty Val) (v : Val) (t : Ty) : Val × Option String :=
  let v := castDeref R v t
  if !(R.assignableTo (R.typeOf v) t) then
    if !(R.convertibleTo (R.typeOf v) t) then
      (v, some ("cannot cast " ++ R.kindString (R.kind (R.typeOf v)) ++ " to "
        ++ R.kindString (R.kind t)))
    else
      (R.convert v t, none)
  else
    (v, none)

/-! ## Func and its call path (jsapi.go:436-520) -/

/-- Outcome of the reflective invocation `f.v.Call(invals)`: either the list
of result values, or a panic (raised by the callable itself or by package
reflect, e.g. on an under-supplied variadic call).  The panic payload is
modelled by its %v rendering. -/
inductive CallResult (Val : Type v) where
  | ok (outs : List Val)
  | panicked (payload : String)

/-- Result of a Go (string, error) function in a context where it may also
panic: `ok` is a nil error, `err` a non-nil error, `panicked` a propagating
panic. -/
inductive GoResult (α : Type u) where
  | ok (a : α)
  | err (e : String)
  | panicked (p : String)
  deriving DecidableEq

/-- Embeds the Go struct `Func` (jsapi.go:436-440): the bound name plus the
reflected signature and behaviour of the callable.  `numIn`, `In` and
`isVariadic` model f.t.NumIn(), f.t.In(i) and f.t.IsVariadic(); `invoke`
models `f.v.Call`. -/
structure Func (Ty : Type u) (Val : Type v) where
  Name : String
  numIn : Nat
  In : Nat → Ty
  isVariadic : Bool
  invoke : List Val → CallResult Val

/-- The parameter type used for argument i (jsapi.go:492-497): for a
variadic callable, every argument at index NumIn()-1 or later is cast to
the element type of the trailing slice parameter. -/
def argType (R : Reflect Ty Val) (f : Func Ty Val) (i : Nat) : Ty :=
  if f.isVariadic ∧ f.numIn - 1 ≤ i then R.elem (f.In (f.numIn - 1)) else f.In i

/-- The cast loop of Func.call (jsapi.go:489-503): cast each decoded
argument to its parameter type, stopping at the first cast error. -/
def castArgs (R : Reflect Ty Val) (f : Func Ty Val) :
    List Val → Nat → Except String (List Val)
  | [], _ => Except.ok []
  | a :: rest, i =>
    match cast R a (argType R f i) with
    | (_, some e) => Except.error e
    | (v, none) =>
      match castArgs R f rest (i + 1) with
      | Except.error e => Except.error e
      | Except.ok vs => Except.ok (v :: vs)

/-- json.Marshal of a []interface values value (the multi-result branch of
Func.call builds such a slice): encoding/json encodes a slice as a JSON
array of the elementwise encodings, in order, failing if any element fails. -/
def marshalElems (R : Reflect Ty Val) : List Val → Except String (List String)
  | [] => Except.ok []
  | v :: rest =>
    match R.marshal v, marshalElems R rest with
    | Except.error e, _ => Except.error e
    | _, Except.error e => Except.error e
    | Except.ok j, Except.ok js => Except.ok (j :: js)

def marshalSlice (R : Reflect Ty Val) (vs : List Val) : Except String String :=
  match marshalElems R vs with
  | Except.error e => Except.error e
  | Except.ok js => Except.ok ("[" ++ String.intercalate "," js ++ "]")

/-- The part of Func.call after the arity validation (jsapi.go:489-519):
cast the arguments, invoke the callable, encode the results (zero results
to the empty string, one result to its JSON encoding, several results to a
JSON array of their encodings). -/
def Func.callRest (R : Reflect Ty Val) (f : Func Ty Val) (inargs : List Val) :
    GoResult String :=
  match castArgs R f inargs 0 with
  | Except.error e => GoResult.err e
  | Except.ok invals =>
    match f.invoke invals with
    | CallResult.panicked p => GoResult.panicked p
    | CallResult.ok outvals =>
      match outvals with
      | [] => GoResult.ok ""
      | [v] =>
        match R.marshal v with
        | Except.ok b => GoResult.ok b
        | Except.error e => GoResult.err e
      | vs =>
        match marshalSlice R vs with
        | Except.ok b => GoResult.ok b
        | Except.error e => GoResult.err e

/-- Embeds `func (f *Func) call(in string) (out string, err error)`
(jsapi.go:478-520): decode the JSON argument array, validate the argument
count (only for non-variadic callables), then cast/invoke/encode. -/
def Func.call (R : Reflect Ty Val) (f : Func Ty Val) (inStr : String) :
    GoResult String :=
  match R.unmarshalArgs inStr with
  | Except.error e => GoResult.err e
  | Except.ok inargs =>
    if inargs.length ≠ f.numIn ∧ !f.isVariadic then
      GoResult.err ("Invalid number of arguments: expected " ++ toString f.numIn
        ++ " got " ++ toString inargs.length)
    else
      Func.callRest R f inargs

/-- Embeds `func (f *Func) Call(in string) (out string, err error)`
(jsapi.go:469-476): run `call` under a deferred recover that turns any
panic into the error `f.Name ++ ": " ++ payload`.  The result is a plain
(out, err) pair: a panic never propagates out of Call. -/
def Func.Call (R : Reflect Ty Val) (f : Func Ty Val) (inStr : String) :
    Except String String :=
  match Func.call R f inStr with
  | GoResult.ok o => Except.ok o
  | GoResult.err e => Except.error e
  | GoResult.panicked r => Except.error (f.Name ++ ": " ++ r)

/-! ## prop: struct-field property proxy (jsapi.go:536-563) -/

/-- Embeds the Go struct `prop` (jsapi.go:537-541) together with the
reflection metadata its operations consult: `name` and `t` are the stored
field name and declared field type, `v` the current field value (threaded
explicitly because Go mutates it in place), and `canSet` models
`p.v.CanSet()` (addressable and exported). -/
structure prop (Ty : Type u) (Val : Type v) where
  name : String
  v : Val
  t : Ty
  canSet : Bool

/-- Outcome of prop.set: the (out, err) pair returned to the engine, or a
propagating panic; each carries the field value after the operation. -/
inductive SetOutcome (Val : Type v) where
  | ok (out : String) (field : Val)
  | err (e : String) (field : Val)
  | panicked (msg : String) (field : Val)
  deriving DecidableEq

/-- Embeds `func (p *prop) get() (string, error)` (jsapi.go:544-547). -/
def prop.get (R : Reflect Ty Val) (p : prop Ty Val) : Except String String :=
  R.marshal p.v

/-- Embeds `func (p *prop) set(injson string) (string, error)`
(jsapi.go:550-563).  Note the source assigns the error result of `cast`
to err but never tests it (`xv, err = cast(xv, p.t)` is followed directly
by the CanSet check), so a failed cast flows on with the uncast value; and
`p.v.Set(xv)` is reflect.Value.Set, which panics when the type of xv is not
assignable to the type of the field — exactly the failed-cast case. -/
def prop.set (R : Reflect Ty Val) (p : prop Ty Val) (injson : String) : SetOutcome Val :=
  match R.unmarshalVal injson with
  | Except.error e => SetOutcome.err e p.v
  | Except.ok x =>
    let xv := (cast R x p.t).1
    if !p.canSet then
      SetOutcome.err ("property " ++ p.name ++ " is not settable") p.v
    else if R.assignableTo (R.typeOf xv) p.t then
      match prop.get R { p with v := xv } with
      | Except.ok out => SetOutcome.ok out xv
      | Except.error e => SetOutcome.err e xv
    else
      SetOutcome.panicked ("reflect: Set using value of wrong type") p.v

/-! ## ErrorReport and the per-context error sink (jsapi.go:189-236) -/

structure ErrorReport where
  Filename : String
  Line : Nat
  Message : String
  deriving DecidableEq

/-- Embeds `func (err *ErrorReport) Error() string` (jsapi.go:195-197). -/
def ErrorReport.error (e : ErrorReport) : String :=
  e.Filename ++ ":" ++ toString e.Line ++ " " ++ e.Message

/-- A Go `error` interface value as it appears in Context.Exec/Eval:
either it wraps the *ErrorReport pointer returned by getError (which may
be the nil pointer: storing a nil typed pointer in an interface still
yields a non-nil interface value in Go), or it wraps an error built by
fmt.Errorf / the standard library. -/
inductive GoErrVal where
  | report (r : Option ErrorReport)
  | generic (s : String)
  deriving DecidableEq

/-- Outcome of an operation that is either a normal value or a Go panic. -/
inductive DoOutcome (α : Type u) where
  | ok (a : α)
  | panicked (msg : String)
  deriving DecidableEq

/-- The engine primitives a unit of work may invoke, recorded so that
theorems can state which work reached the engine. -/
inductive EngineOp where
  | evalOp (filename : String)
  | evalJSONOp (filename : String)
  | defineObjectOp (name : String)
  | defineFunctionOp (name : String)
  | definePropertyOp (name : String)
  | destroyContextOp
  deriving DecidableEq

/-- A bound function as registered in a Context or Object: the Func record
data plus its Call behaviour (Func.Call over the underlying callable,
already instantiated, hence a plain (out, err) function). -/
structure GoFn where
  Name : String
  beh : String → Except String String

/-- A script-visible object (Go struct `Object`, jsapi.go:418-424), as far
as callback dispatch and property registration are concerned. -/
structure Object where
  funcs : List (String × GoFn)
  props : List (String × GoKind)

/-- Embeds the Go struct `Context` (jsapi.go:203-210): engine pointer,
global-object handle (the C-side c.o used by callback), object registry,
global function registry, validity flag and error sink.  Handles are
modelled as naturals. -/
structure Context where
  ptr : Option Nat
  o : Nat
  objs : List (Nat × Object)
  funcs : List (String × GoFn)
  Valid : Bool
  errs : List (String × ErrorReport)

/-- Embeds `func (cx *Context) setError(...)` (jsapi.go:214-223). -/
def Context.setError (cx : Context) (filename : String) (line : Nat) (message : String) :
    Context :=
  { cx with errs := insertA filename ⟨filename, line, message⟩ cx.errs }

/-- Embeds `func (cx *Context) getError(filename string) *ErrorReport`
(jsapi.go:226-236): look up the report under the eval filename and delete
it; otherwise fall back to the report under "__fatal__" — but note the
source then executes `delete(cx.errs, filename)`, deleting under the eval
filename (a key just found absent), not under "__fatal__". -/
def Context.getError (cx : Context) (filename : String) :
    Option ErrorReport × List (String × ErrorReport) :=
  match lookupA filename cx.errs with
  | some err => (some err, eraseA filename cx.errs)
  | none =>
    match lookupA "__fatal__" cx.errs with
    | some err => (some err, eraseA filename cx.errs)
    | none => (none, cx.errs)

/-! ## Context.do and the host-facing operations (jsapi.go:238-416) -/

/-- Embeds `func (cx *Context) do(fn func())` (jsapi.go:394-402): panic if
the Context is no longer valid, otherwise hand the unit of work to the
process-wide executor (jsapi.do), which runs it.  The work is of type
DoOutcome so that panics raised inside the submitted closure are values
too; they are reached only when the validity guards pass.  (The source
checks cx.Valid twice in a row; both checks test the same flag.) -/
def Context.doRun {α : Type u} (cx : Context) (work : DoOutcome α) : DoOutcome α :=
  if !cx.Valid then DoOutcome.panicked "attempt to do a destroyed Context"
  else if !cx.Valid then DoOutcome.panicked "context destroyed while waiting for do"
  else work

/-- Embeds `func (cx *Context) Destroy()` (jsapi.go:238-247): when the
Context is still valid, route a unit of work through the executor that
destroys the engine instance, clears the validity flag and nils the engine
pointer.  The body contains no `delete(contexts, ...)`: the live-context
registry is not touched.  When the Context is already invalid, nothing at
all happens (in particular cx.do is never entered). -/
def Context.Destroy (cx : Context) : DoOutcome (List EngineOp × Context) :=
  if cx.Valid then
    Context.doRun cx
      (DoOutcome.ok ([EngineOp.destroyContextOp], { cx with Valid := false, ptr := none }))
  else
    DoOutcome.ok ([], cx)

/-- Embeds `func (cx *Context) Exec(source string) (err error)`
(jsapi.go:250-267).  `engineOK` is the completion status of the external
JSAPI_Eval call; `cx.errs` is taken to be the sink state after any
reporter callbacks the engine made during that call.  On a non-success
status the source runs `if err = cx.getError(filename); err != nil`:
getError returns a *ErrorReport, and assigning it to the error-typed err
produces a non-nil interface even when the pointer is nil, so the branch
below it that would build the generic "no error report found" error is
unreachable. -/
def Context.Exec (cx : Context) (_source : String) (engineOK : Bool) :
    DoOutcome (List EngineOp × Option GoErrVal × Context) :=
  Context.doRun cx
    (if engineOK then
      DoOutcome.ok ([EngineOp.evalOp "eval"], none, cx)
    else
      let p := Context.getError cx "eval"
      let errIface : Option GoErrVal := some (GoErrVal.report p.1)
      if errIface.isSome then
        DoOutcome.ok ([EngineOp.evalOp "eval"], errIface, { cx with errs := p.2 })
      else
        DoOutcome.ok ([EngineOp.evalOp "eval"],
          some (GoErrVal.generic "Failed to exec javascript and no error report found"),
          { cx with errs := p.2 }))

/-- Embeds `func (cx *Context) Eval(source string, result interface value)`
(jsapi.go:272-296).  `engineResult` is none for a non-success JSAPI_EvalJSON
status and `some json` for success; `decodeErr` is the outcome of the final
json.Unmarshal into the caller target.  The failure path has the same
unreachable generic-error branch as Exec. -/
def Context.Eval (cx : Context) (_source : String) (engineResult : Option String)
    (decodeErr : Option String) : DoOutcome (List EngineOp × Option GoErrVal × Context) :=
  Context.doRun cx
    (match engineResult with
    | none =>
      let p := Context.getError cx "eval"
      let errIface : Option GoErrVal := some (GoErrVal.report p.1)
      if errIface.isSome then
        DoOutcome.ok ([EngineOp.evalJSONOp "eval"], errIface, { cx with errs := p.2 })
      else
        DoOutcome.ok ([EngineOp.evalJSONOp "eval"],
          some (GoErrVal.generic "Failed to eval javascript and no error report found"),
          { cx with errs := p.2 })
    | some _json =>
      match decodeErr with
      | some e => DoOutcome.ok ([EngineOp.evalJSONOp "eval"], some (GoErrVal.generic e), cx)
      | none => DoOutcome.ok ([EngineOp.evalJSONOp "eval"], none, cx))

/-- Embeds `func (cx *Context) ExecFrom(r io.Reader)` (jsapi.go:299-305):
read everything from the reader (outcome `readRes`), propagate a read error
unchanged, otherwise delegate to Exec. -/
def Context.ExecFrom (cx : Context) (readRes : Except String String) (engineOK : Bool) :
    DoOutcome (List EngineOp × Option GoErrVal × Context) :=
  match readRes with
  | Except.error e => DoOutcome.ok ([], some (GoErrVal.generic e), cx)
  | Except.ok _b => Context.Exec cx _b engineOK

/-- Embeds `func (cx *Context) ExecFile(filename string)` (jsapi.go:308-315):
open the file (outcome `openRes`), propagate an open error, otherwise
delegate to ExecFrom. -/
def Context.ExecFile (cx : Context) (openRes : Except String Unit)
    (readRes : Except String String) (engineOK : Bool) :
    DoOutcome (List EngineOp × Option GoErrVal × Context) :=
  match openRes with
  | Except.error e => DoOutcome.ok ([], some (GoErrVal.generic e), cx)
  | Except.ok _ => Context.ExecFrom cx readRes engineOK

/-! ## Definition-time checks: NewFunc and the define operations
(jsapi.go:337-390 and 442-467) -/

/-- The reflected shape of the value passed to NewFunc: `isValid` models
reflect.ValueOf(fun).IsValid(), `kind` the kind of its type, `inKinds` the
kinds of its declared parameter types in order. -/
structure FunSig where
  isValid : Bool
  kind : GoKind
  inKinds : List GoKind
  deriving DecidableEq

/-- The record NewFunc builds (the signature/behaviour pair lives in GoFn;
here only the data NewFunc itself writes). -/
structure FuncRec where
  Name : String
  sig : FunSig
  deriving DecidableEq

/-- The parameter kinds acceptable for javascript interop
(jsapi.go:454-460). -/
def acceptableKind : GoKind → Bool
  | GoKind.Bool | GoKind.Int | GoKind.Int8 | GoKind.Int16 | GoKind.Int32 | GoKind.Int64
  | GoKind.Uint | GoKind.Uint8 | GoKind.Uint16 | GoKind.Uint32 | GoKind.Uint64
  | GoKind.Float32 | GoKind.Float64 | GoKind.Interface | GoKind.Map | GoKind.Slice
  | GoKind.String => true
  | _ => false

/-- The in-argument validation loop of NewFunc (jsapi.go:453-464): panic at
the first parameter whose kind is outside the acceptable set. -/
def checkInKinds : List GoKind → Option String
  | [] => none
  | k :: rest =>
    if acceptableKind k then checkInKinds rest
    else some "X is not a valid argument type for javascript interop"

/-- Embeds `func NewFunc(fun interface value) *Func` (jsapi.go:442-467):
panic on an invalid value, on a non-function kind, and on any unacceptable
parameter kind; otherwise build the record with Name "[anon]". -/
def NewFunc (fsig : FunSig) : DoOutcome FuncRec :=
  if !fsig.isValid then DoOutcome.panicked "invalid function type"
  else if fsig.kind ≠ GoKind.Func then DoOutcome.panicked "X is not a valid function type"
  else
    match checkInKinds fsig.inKinds with
    | some m => DoOutcome.panicked m
    | none => DoOutcome.ok { Name := "[anon]", sig := fsig }

/-- A Go type as inspected by defineObject: a non-struct non-pointer base
type of some kind, a struct with named fields, or a pointer type. -/
inductive GoType where
  | base (k : GoKind)
  | strukt (fields : List (String × GoKind))
  | ptrTo (t : GoType)
  deriving DecidableEq

def GoType.kind : GoType → GoKind
  | GoType.base k => k
  | GoType.strukt _ => GoKind.Struct
  | GoType.ptrTo _ => GoKind.Ptr

def GoType.fields : GoType → List (String × GoKind)
  | GoType.strukt fs => fs
  | _ => []

/-- One reflect.Indirect step on the type level (defineObject dereferences
a pointer proxy exactly once, jsapi.go:351-354). -/
def derefType : GoType → GoType
  | GoType.ptrTo t => t
  | t => t

/-- The field loop of defineObject (jsapi.go:358-367): register each field
as a prop and define it in the engine; a failed JSAPI_DefineProperty call
is a panic.  `definePropOK` is the uniform status of those engine calls. -/
def definePropsLoop (definePropOK : Bool) :
    List (String × GoKind) → DoOutcome (List (String × GoKind) × List EngineOp)
  | [] => DoOutcome.ok ([], [])
  | (n, k) :: rest =>
    if definePropOK then
      match definePropsLoop definePropOK rest with
      | DoOutcome.ok (ps, ops) =>
        DoOutcome.ok ((n, k) :: ps, EngineOp.definePropertyOp n :: ops)
      | DoOutcome.panicked m => DoOutcome.panicked m
    else DoOutcome.panicked "failed to define property"

/-- Embeds `func (cx *Context) defineObject(name, proxy, id)`
(jsapi.go:337-371): inside the executor, define the object in the engine
(its engine-assigned handle is `newId`), register it in cx.objs, and if a
proxy was given check that it is a struct or pointer to a struct (panic
otherwise) and define each of its fields as a property. -/
def Context.defineObject (cx : Context) (name : String) (proxy : Option GoType)
    (newId : Nat) (definePropOK : Bool) :
    DoOutcome (List EngineOp × Context × Object) :=
  let o : Object := { funcs := [], props := [] }
  Context.doRun cx
    (let ops0 := [EngineOp.defineObjectOp name]
     let cx1 : Context := { cx with objs := insertA newId o cx.objs }
     match proxy with
     | none => DoOutcome.ok (ops0, cx1, o)
     | some t =>
       let ot := if t.kind = GoKind.Ptr then derefType t else t
       if ot.kind ≠ GoKind.Struct then
         DoOutcome.panicked "proxy object must be a kind of struct or pointer to a struct"
       else
         match definePropsLoop definePropOK ot.fields with
         | DoOutcome.panicked m => DoOutcome.panicked m
         | DoOutcome.ok (ps, ops1) =>
           let o2 : Object := { o with props := ps }
           DoOutcome.ok (ops0 ++ ops1, { cx with objs := insertA newId o2 cx.objs }, o2))

/-- Embeds `func (cx *Context) DefineObject(name, proxy)` (jsapi.go:333-335),
which simply delegates to defineObject with a nil parent handle. -/
def Context.DefineObject (cx : Context) (name : String) (proxy : Option GoType)
    (newId : Nat) (definePropOK : Bool) :
    DoOutcome (List EngineOp × Context × Object) :=
  Context.defineObject cx name proxy newId definePropOK

/-- Embeds `func (cx *Context) defineFunction(name, fun, id)`
(jsapi.go:379-390): build the Func via NewFunc (whose panics happen before
any executor submission), then inside the executor define the function in
the engine (panic if that fails) and set its bound name. -/
def Context.defineFunction (cx : Context) (name : String) (fsig : FunSig)
    (defineFnOK : Bool) : DoOutcome (List EngineOp × FuncRec) :=
  match NewFunc fsig with
  | DoOutcome.panicked m => DoOutcome.panicked m
  | DoOutcome.ok f =>
    Context.doRun cx
      (if !defineFnOK then DoOutcome.panicked "failed to define function"
       else DoOutcome.ok ([EngineOp.defineFunctionOp name], { f with Name := name }))

/-- Embeds `func (cx *Context) DefineFunction(name, fun)` (jsapi.go:373-377):
defineFunction, then register the result in the global function map under
its bound name.  `beh` is the Call behaviour of the bound callable, paired
with the record on registration. -/
def Context.DefineFunction (cx : Context) (name : String) (fsig : FunSig)
    (beh : String → Except String String) (defineFnOK : Bool) :
    DoOutcome (List EngineOp × Context × FuncRec) :=
  match Context.defineFunction cx name fsig defineFnOK with
  | DoOutcome.panicked m => DoOutcome.panicked m
  | DoOutcome.ok (ops, f) =>
    DoOutcome.ok (ops, { cx with funcs := insertA f.Name { Name := f.Name, beh := beh } cx.funcs }, f)

/-! ## The live-context registry and the engine callbacks
(jsapi.go:76, 88-187, 405-416) -/

/-- The process-wide state the engine callbacks consult: the live-context
registry `var contexts = make(map[*C.JSAPIContext]*Context)` (jsapi.go:76).
The map stores the Context object itself (Go stores a pointer to it), so a
mutation of a registered Context is visible through its registry entry. -/
structure World where
  contexts : List (Nat × Context)

/-- Embeds `func NewContext() *Context` (jsapi.go:405-416): create the
engine context (handle `newPtr`), initialise the registries, mark it valid
and register it in the live-context registry. -/
def NewContext (w : World) (newPtr : Nat) (globalHandle : Nat) : World × Context :=
  let cx : Context :=
    { ptr := some newPtr, o := globalHandle, objs := [], funcs := [], Valid := true,
      errs := [] }
  ({ contexts := insertA newPtr cx w.contexts }, cx)

/-- Destroy invoked on the Context registered under key k: the state change
of the shared Context object is visible through the registry.  Destroy
itself never removes the entry (jsapi.go:238-247 contains no delete on
`contexts`). -/
def destroyedCtx (cx : Context) : Context :=
  match Context.Destroy cx with
  | DoOutcome.ok p => p.2
  | DoOutcome.panicked _ => cx

def destroyWorld (w : World) (k : Nat) : World :=
  { contexts := w.contexts.map (fun e => if e.1 = k then (e.1, destroyedCtx e.2) else e) }

/-- Embeds the exported engine dispatch callback `callback`
(jsapi.go:89-124): resolve the context by its handle (a missing handle is
the "attempt to use context after destroyed" error), resolve the function
in the global map (when the scope handle is the context global object) or
in the addressed object's map, run Func.Call on the JSON arguments, and
hand (status, out-or-error) back to the engine. -/
def callback (w : World) (c : Nat) (id : Nat) (name : String) (args : String) :
    Int × String :=
  match lookupA c w.contexts with
  | none => (0, "attempt to use context after destroyed")
  | some cx =>
    if id = cx.o then
      match lookupA name cx.funcs with
      | none => (0, "attempt to use global func that doesn\x27t appear to exist")
      | some fn =>
        match fn.beh args with
        | Except.error e => (0, e)
        | Except.ok out => (1, out)
    else
      match lookupA id cx.objs with
      | none => (0, "attempt to use global object that doesn\x27t appear to exist")
      | some o =>
        match lookupA name o.funcs with
        | none => (0, "attempt to use func that doesn\x27t appear to exist")
        | some fn =>
          match fn.beh args with
          | Except.error e => (0, e)
          | Except.ok out => (1, out)

/-- Embeds the head of the exported property-get callback `getprop`
(jsapi.go:136-160): the context-registry lookup mirrors `callback`
exactly; the per-property marshalling is abstracted as the stored prop
behaviour is not needed there, so only the registry/object/property
resolution is modelled, with `found` standing for a successful get. -/
def getpropHead (w : World) (c : Nat) (id : Nat) (name : String) :
    Option (Int × String) :=
  match lookupA c w.contexts with
  | none => some (0, "attempt to use context after destroyed")
  | some cx =>
    match lookupA id cx.objs with
    | none => some (0, "attempt to use object that doesn\x27t appear to exist")
    | some o =>
      match lookupA name o.props with
      | none => some (0, "attempt to get property that doesn\x27t appear to exist")
      | some _ => none

/-! ## A concrete reflection instance

A small closed universe of Go types and values, with assignability,
convertibility and JSON codec rules matching the Go runtime on that
fragment.  It exists so that the parametric theorems above can be
evaluated at concrete inputs; the parametric theorems do not depend on it. -/

inductive SimpleTy where
  | sBool | sInt | sFloat64 | sString | sMapT | sIface
  | sSliceT (e : SimpleTy)
  | sPtrT (t : SimpleTy)
  deriving DecidableEq

inductive SimpleVal where
  | vBool (b : Bool)
  | vNum (n : Int) (ty : SimpleTy)
  | vStr (s : String)
  | vPtr (p : SimpleVal)
  | vNil
  deriving DecidableEq

def SimpleTy.kindOf : SimpleTy → GoKind
  | SimpleTy.sBool => GoKind.Bool
  | SimpleTy.sInt => GoKind.Int
  | SimpleTy.sFloat64 => GoKind.Float64
  | SimpleTy.sString => GoKind.String
  | SimpleTy.sMapT => GoKind.Map
  | SimpleTy.sIface => GoKind.Interface
  | SimpleTy.sSliceT _ => GoKind.Slice
  | SimpleTy.sPtrT _ => GoKind.Ptr

/-- The dynamic type of a value; a nil interface has interface kind. -/
def SimpleVal.tyOf : SimpleVal → SimpleTy
  | SimpleVal.vBool _ => SimpleTy.sBool
  | SimpleVal.vNum _ ty => ty
  | SimpleVal.vStr _ => SimpleTy.sString
  | SimpleVal.vPtr p => SimpleTy.sPtrT p.tyOf
  | SimpleVal.vNil => SimpleTy.sIface

def SimpleTy.numeric : SimpleTy → Bool
  | SimpleTy.sInt => true
  | SimpleTy.sFloat64 => true
  | _ => false

def simpleAssignable (a b : SimpleTy) : Bool :=
  a = b ∨ b = SimpleTy.sIface

def simpleConvertible (a b : SimpleTy) : Bool :=
  simpleAssignable a b ∨ (a.numeric ∧ b.numeric)

def simpleConvert (v : SimpleVal) (t : SimpleTy) : SimpleVal :=
  match v with
  | SimpleVal.vNum n _ => SimpleVal.vNum n t
  | v => v

def simpleIndirect : SimpleVal → SimpleVal
  | SimpleVal.vPtr p => p
  | v => v

def simpleElem : SimpleTy → SimpleTy
  | SimpleTy.sSliceT e => e
  | SimpleTy.sPtrT t => t
  | t => t

/-- The %s rendering of each reflect.Kind, as the Go runtime prints it. -/
def goKindString : GoKind → String
  | GoKind.Bool => "bool"
  | GoKind.Int => "int"
  | GoKind.Int8 => "int8"
  | GoKind.Int16 => "int16"
  | GoKind.Int32 => "int32"
  | GoKind.Int64 => "int64"
  | GoKind.Uint => "uint"
  | GoKind.Uint8 => "uint8"
  | GoKind.Uint16 => "uint16"
  | GoKind.Uint32 => "uint32"
  | GoKind.Uint64 => "uint64"
  | GoKind.Float32 => "float32"
  | GoKind.Float64 => "float64"
  | GoKind.Interface => "interface"
  | GoKind.Map => "map"
  | GoKind.Slice => "slice"
  | GoKind.String => "string"
  | GoKind.Ptr => "ptr"
  | GoKind.Struct => "struct"
  | GoKind.Func => "func"
  | GoKind.Chan => "chan"
  | GoKind.UnsafePointer => "unsafe.Pointer"

def SimpleVal.enc : SimpleVal → String
  | SimpleVal.vBool true => "true"
  | SimpleVal.vBool false => "false"
  | SimpleVal.vNum n _ => toString n
  | SimpleVal.vStr s => "\"" ++ s ++ "\""
  | SimpleVal.vPtr p => SimpleVal.enc p
  | SimpleVal.vNil => "null"

/-- A finite table standing for json.Unmarshal into one interface value on
the documents the witnesses use; JSON numbers decode to float64. -/
def simpleUnmarshalVal : String → Except String SimpleVal
  | "42" => Except.ok (SimpleVal.vNum 42 SimpleTy.sFloat64)
  | "true" => Except.ok (SimpleVal.vBool true)
  | "\"hi\"" => Except.ok (SimpleVal.vStr "hi")
  | s => Except.error ("invalid character in " ++ s)

/-- A finite table standing for json.Unmarshal into an argument slice on
the documents the witnesses use; JSON numbers decode to float64. -/
def simpleUnmarshalArgs : String → Except String (List SimpleVal)
  | "[]" => Except.ok []
  | "[7]" => Except.ok [SimpleVal.vNum 7 SimpleTy.sFloat64]
  | "[1,2]" => Except.ok
      [SimpleVal.vNum 1 SimpleTy.sFloat64, SimpleVal.vNum 2 SimpleTy.sFloat64]
  | s => Except.error ("invalid character in " ++ s)

def simpleR : Reflect SimpleTy SimpleVal :=
  { kind := SimpleTy.kindOf
    typeOf := SimpleVal.tyOf
    assignableTo := simpleAssignable
    convertibleTo := simpleConvertible
    indirect := simpleIndirect
    convert := simpleConvert
    elem := simpleElem
    kindString := goKindString
    marshal := fun v => Except.ok v.enc
    unmarshalArgs := simpleUnmarshalArgs
    unmarshalVal := simpleUnmarshalVal }

/-! ## Concrete fixtures for witnesses -/

/-- A freshly created Context with no registrations. -/
def validCx : Context :=
  { ptr := some 7, o := 1, objs := [], funcs := [], Valid := true, errs := [] }

/-- A Context whose validity flag has been cleared. -/
def invalidCx : Context :=
  { ptr := none, o := 1, objs := [], funcs := [], Valid := false, errs := [] }

/-! ## Theorems -/

/-- C6: for every value v and target type t, cast(v, t) first dereferences v
when v is a pointer value and t is not a pointer type; then it returns the
(possibly dereferenced) value unchanged when its type is assignable to t,
returns the converted value when it is merely convertible to t, and
otherwise fails with the error "cannot cast A to B" naming the source and
target kinds. -/
theorem C6_cast_spec (R : Reflect Ty Val) (v : Val) (t : Ty) :
    (R.kind (R.typeOf v) = GoKind.Ptr ∧ R.kind t ≠ GoKind.Ptr →
      castDeref R v t = R.indirect v) ∧
    (¬(R.kind (R.typeOf v) = GoKind.Ptr ∧ R.kind t ≠ GoKind.Ptr) →
      castDeref R v t = v) ∧
    (R.assignableTo (R.typeOf (castDeref R v t)) t = true →
      cast R v t = (castDeref R v t, none)) ∧
    (R.assignableTo (R.typeOf (castDeref R v t)) t = false →
      R.convertibleTo (R.typeOf (castDeref R v t)) t = true →
      cast R v t = (R.convert (castDeref R v t) t, none)) ∧
    (R.assignableTo (R.typeOf (castDeref R v t)) t = false →
      R.convertibleTo (R.typeOf (castDeref R v t)) t = false →
      cast R v t = (castDeref R v t,
        some ("cannot cast " ++ R.kindString (R.kind (R.typeOf (castDeref R v t))) ++ " to "
          ++ R.kindString (R.kind t)))) := by
  refine ⟨?_, ?_, ?_, ?_, ?_⟩
  · intro h; simp [castDeref, h]
  · intro h; simp only [castDeref, if_neg h]
  · intro h; simp [cast, h]
  · intro h1 h2; simp [cast, h1, h2]
  · intro h1 h2; simp [cast, h1, h2]

/-- Witness for C6 at concrete inputs of the concrete reflection instance:
a pointer to an int cast to int is dereferenced and returned unchanged, a
float64 cast to int is converted, and a float64 cast to a map type fails
with "cannot cast float64 to map". -/
theorem C6_cast_spec_witness :
    cast simpleR (SimpleVal.vPtr (SimpleVal.vNum 3 SimpleTy.sInt)) SimpleTy.sInt
      = (SimpleVal.vNum 3 SimpleTy.sInt, none) ∧
    cast simpleR (SimpleVal.vNum 1 SimpleTy.sFloat64) SimpleTy.sInt
      = (SimpleVal.vNum 1 SimpleTy.sInt, none) ∧
    cast simpleR (SimpleVal.vNum 1 SimpleTy.sFloat64) SimpleTy.sMapT
      = (SimpleVal.vNum 1 SimpleTy.sFloat64, some "cannot cast float64 to map") := by
  refine ⟨?_, ?_, ?_⟩
  · exact ((C6_cast_spec simpleR (SimpleVal.vPtr (SimpleVal.vNum 3 SimpleTy.sInt))
      SimpleTy.sInt).2.2.1 (by decide)).trans (by decide)
  · exact ((C6_cast_spec simpleR (SimpleVal.vNum 1 SimpleTy.sFloat64)
      SimpleTy.sInt).2.2.2.1 (by decide) (by decide)).trans (by decide)
  · exact ((C6_cast_spec simpleR (SimpleVal.vNum 1 SimpleTy.sFloat64)
      SimpleTy.sMapT).2.2.2.2 (by decide) (by decide)).trans (by decide)

/-- C7: for every successful invocation of a bound callable, zero declared
results encode to the empty success payload, exactly one result encodes to
that value's JSON encoding, and two or more results encode to a JSON array
of the results' encodings in declared order. -/
theorem C7_result_encoding (R : Reflect Ty Val) (f : Func Ty Val) (inStr : String)
    (args vals : List Val)
    (hdec : R.unmarshalArgs inStr = Except.ok args)
    (harity : ¬(args.length ≠ f.numIn ∧ !f.isVariadic))
    (hcast : castArgs R f args 0 = Except.ok vals) :
    (f.invoke vals = CallResult.ok [] → Func.call R f inStr = GoResult.ok "") ∧
    (∀ v j, f.invoke vals = CallResult.ok [v] → R.marshal v = Except.ok j →
      Func.call R f inStr = GoResult.ok j) ∧
    (∀ v1 v2 rest js, f.invoke vals = CallResult.ok (v1 :: v2 :: rest) →
      marshalElems R (v1 :: v2 :: rest) = Except.ok js →
      Func.call R f inStr
        = GoResult.ok ("[" ++ String.intercalate "," js ++ "]")) := by
  have harity2 : ¬args.length = f.numIn → f.isVariadic = true := by
    intro h
    cases hv : f.isVariadic
    · exact absurd ⟨h, by simp [hv]⟩ harity
    · rfl
  refine ⟨?_, ?_, ?_⟩
  · intro hout
    simp [Func.call, hdec, harity, Func.callRest, hcast, hout]
    exact harity2
  · intro v j hout hm
    simp [Func.call, hdec, harity, Func.callRest, hcast, hout, hm]
    exact harity2
  · intro v1 v2 rest js hout hm
    simp [Func.call, hdec, harity, Func.callRest, hcast, hout, marshalSlice, hm]
    exact harity2

/-- A bound callable with two non-variadic float64 parameters and no
results. -/
def zeroResultProbe : Func SimpleTy SimpleVal :=
  { Name := "p0", numIn := 2, In := fun _ => SimpleTy.sFloat64, isVariadic := false,
    invoke := fun _ => CallResult.ok [] }

/-- As zeroResultProbe but with one declared int result. -/
def oneResultProbe : Func SimpleTy SimpleVal :=
  { Name := "p1", numIn := 2, In := fun _ => SimpleTy.sFloat64, isVariadic := false,
    invoke := fun _ => CallResult.ok [SimpleVal.vNum 3 SimpleTy.sInt] }

/-- As zeroResultProbe but with two declared results. -/
def twoResultProbe : Func SimpleTy SimpleVal :=
  { Name := "p2", numIn := 2, In := fun _ => SimpleTy.sFloat64, isVariadic := false,
    invoke := fun _ => CallResult.ok [SimpleVal.vNum 1 SimpleTy.sInt, SimpleVal.vStr "a"] }

/-- Witness for C7: a call with no results yields the empty payload, one
result yields its JSON encoding, two results yield the JSON array of both
encodings in order. -/
theorem C7_result_encoding_witness :
    Func.call simpleR zeroResultProbe "[1,2]" = GoResult.ok "" ∧
    Func.call simpleR oneResultProbe "[1,2]" = GoResult.ok "3" ∧
    Func.call simpleR twoResultProbe "[1,2]" = GoResult.ok "[1,\"a\"]" := by
  refine ⟨?_, ?_, ?_⟩
  · exact (C7_result_encoding simpleR zeroResultProbe "[1,2]"
      [SimpleVal.vNum 1 SimpleTy.sFloat64, SimpleVal.vNum 2 SimpleTy.sFloat64]
      [SimpleVal.vNum 1 SimpleTy.sFloat64, SimpleVal.vNum 2 SimpleTy.sFloat64]
      rfl (by decide) rfl).1 rfl
  · exact (C7_result_encoding simpleR oneResultProbe "[1,2]"
      [SimpleVal.vNum 1 SimpleTy.sFloat64, SimpleVal.vNum 2 SimpleTy.sFloat64]
      [SimpleVal.vNum 1 SimpleTy.sFloat64, SimpleVal.vNum 2 SimpleTy.sFloat64]
      rfl (by decide) rfl).2.1 (SimpleVal.vNum 3 SimpleTy.sInt) "3" rfl rfl
  · exact ((C7_result_encoding simpleR twoResultProbe "[1,2]"
      [SimpleVal.vNum 1 SimpleTy.sFloat64, SimpleVal.vNum 2 SimpleTy.sFloat64]
      [SimpleVal.vNum 1 SimpleTy.sFloat64, SimpleVal.vNum 2 SimpleTy.sFloat64]
      rfl (by decide) rfl).2.2 (SimpleVal.vNum 1 SimpleTy.sInt) (SimpleVal.vStr "a") []
      ["1", "\"a\""] rfl rfl).trans (by decide)

/-- C5: any panic raised during the invocation of a bound callable is
recovered by Func.Call and converted into a recoverable error whose message
is the bound name, ": ", and the panic payload; surfaced through the engine
dispatch callback it becomes a status-0 error return (a script exception),
and the callback leaves every Context untouched (it is a pure function of
the world), so the Context stays valid and usable. -/
theorem C5_panic_recovered (R : Reflect Ty Val) (f : Func Ty Val) (inStr : String)
    (args vals : List Val) (p : String)
    (hdec : R.unmarshalArgs inStr = Except.ok args)
    (harity : ¬(args.length ≠ f.numIn ∧ !f.isVariadic))
    (hcast : castArgs R f args 0 = Except.ok vals)
    (hpanic : f.invoke vals = CallResult.panicked p) :
    Func.call R f inStr = GoResult.panicked p ∧
    Func.Call R f inStr = Except.error (f.Name ++ ": " ++ p) ∧
    (∀ (w : World) (c : Nat) (cx : Context) (name : String),
      lookupA c w.contexts = some cx →
      lookupA name cx.funcs = some { Name := f.Name, beh := Func.Call R f } →
      callback w c cx.o name inStr = (0, f.Name ++ ": " ++ p)) := by
  have harity2 : ¬args.length = f.numIn → f.isVariadic = true := by
    intro h
    cases hv : f.isVariadic
    · exact absurd ⟨h, by simp [hv]⟩ harity
    · rfl
  have hcall : Func.call R f inStr = GoResult.panicked p := by
    simp [Func.call, hdec, Func.callRest, hcast, hpanic]
    exact harity2
  have hCall : Func.Call R f inStr = Except.error (f.Name ++ ": " ++ p) := by
    simp [Func.Call, hcall]
  refine ⟨hcall, hCall, ?_⟩
  intro w c cx name hw hf
  simp [callback, hw, hf, hCall]

/-- A bound callable whose body panics with payload "BANG" on every
invocation. -/
def raiseProbe : Func SimpleTy SimpleVal :=
  { Name := "raise", numIn := 1, In := fun _ => SimpleTy.sFloat64, isVariadic := false,
    invoke := fun _ => CallResult.panicked "BANG" }

/-- A valid Context whose global function "raise" is the bound raiseProbe. -/
def raiseCx : Context :=
  { ptr := some 7, o := 1, objs := [],
    funcs := [("raise", { Name := "raise", beh := Func.Call simpleR raiseProbe })],
    Valid := true, errs := [] }

/-- A world holding raiseCx registered under handle 7. -/
def raiseWorld : World :=
  { contexts := [(7, raiseCx)] }

/-- Witness for C5: the panic from raiseProbe surfaces as the error
"raise: BANG", and as a status-0 dispatch result. -/
theorem C5_panic_recovered_witness :
    Func.Call simpleR raiseProbe "[7]" = Except.error "raise: BANG" ∧
    callback raiseWorld 7 1 "raise" "[7]" = (0, "raise: BANG") := by
  have h := C5_panic_recovered simpleR raiseProbe "[7]"
    [SimpleVal.vNum 7 SimpleTy.sFloat64] [SimpleVal.vNum 7 SimpleTy.sFloat64] "BANG"
    rfl (by decide) rfl rfl
  exact ⟨h.2.1, h.2.2 raiseWorld 7 raiseCx "raise" rfl rfl⟩

/-- A variadic bound callable: one fixed float64 parameter plus a variadic
tail.  Its reflective invocation panics when given no values, as
reflect.Value.Call does when it receives fewer inputs than the fixed
parameters require. -/
def variadicProbe : Func SimpleTy SimpleVal :=
  { Name := "vf", numIn := 2
    In := fun i => if i = 0 then SimpleTy.sFloat64 else SimpleTy.sSliceT SimpleTy.sIface
    isVariadic := true
    invoke := fun vs =>
      if vs.length = 0 then CallResult.panicked "reflect: Call with too few input arguments"
      else CallResult.ok [] }

/-- C3 counterexample: the claim states that a variadic callable invoked
with fewer arguments than its count of fixed parameters yields the
recoverable arity-mismatch error reporting expected and actual counts.  On
the code the arity validation (jsapi.go:486-488) is skipped entirely
whenever the callable is variadic: here a variadic callable with one fixed
parameter is invoked with zero arguments, the arity error is not produced,
and the call instead reaches reflect.Value.Call, whose panic is recovered
into a differently-shaped error. -/
theorem C3_variadic_arity_counterexample :
    Func.call simpleR variadicProbe "[]"
      = GoResult.panicked "reflect: Call with too few input arguments" ∧
    Func.call simpleR variadicProbe "[]"
      ≠ GoResult.err "Invalid number of arguments: expected 2 got 0" ∧
    Func.Call simpleR variadicProbe "[]"
      = Except.error "vf: reflect: Call with too few input arguments" := by
  exact ⟨rfl, by decide, rfl⟩

/-- C3 (amended): for every call dispatched to a bound function, if the
callable is not variadic a decoded argument count different from the
declared parameter count yields the recoverable error reporting the
expected and actual counts, and an equal count proceeds; if the callable is
variadic, the arity check is skipped entirely, so every argument count
(including counts below the number of fixed parameters) proceeds to the
cast-and-invoke stage. -/
theorem C3_arity_check (R : Reflect Ty Val) (f : Func Ty Val) (inStr : String)
    (args : List Val) (hdec : R.unmarshalArgs inStr = Except.ok args) :
    (f.isVariadic = false → args.length ≠ f.numIn →
      Func.call R f inStr = GoResult.err ("Invalid number of arguments: expected "
        ++ toString f.numIn ++ " got " ++ toString args.length)) ∧
    (f.isVariadic = false → args.length = f.numIn →
      Func.call R f inStr = Func.callRest R f args) ∧
    (f.isVariadic = true →
      Func.call R f inStr = Func.callRest R f args) := by
  refine ⟨?_, ?_, ?_⟩
  · intro hv hne; simp [Func.call, hdec, hv, hne]
  · intro hv heq; simp [Func.call, hdec, hv, heq]
  · intro hv; simp [Func.call, hdec, hv]

/-- A non-variadic two-parameter bound callable. -/
def addProbe : Func SimpleTy SimpleVal :=
  { Name := "add", numIn := 2, In := fun _ => SimpleTy.sFloat64, isVariadic := false,
    invoke := fun _ => CallResult.ok [SimpleVal.vNum 3 SimpleTy.sInt] }

/-- Witness for C3 (amended): a non-variadic callable called with one of
two arguments gets the arity error with both counts; the variadic callable
called with zero arguments proceeds past the arity check. -/
theorem C3_arity_check_witness :
    Func.call simpleR addProbe "[7]"
      = GoResult.err "Invalid number of arguments: expected 2 got 1" ∧
    Func.call simpleR variadicProbe "[]" = Func.callRest simpleR variadicProbe [] := by
  constructor
  · exact ((C3_arity_check simpleR addProbe "[7]" [SimpleVal.vNum 7 SimpleTy.sFloat64]
      rfl).1 rfl (by decide)).trans (by decide)
  · exact (C3_arity_check simpleR variadicProbe "[]" [] rfl).2.2 rfl

/-- C4 (code evaluation at the failing input): the claim states that a
failing cast during a property set yields the descriptive cast error and
leaves the field unassigned.  On the code, prop.set assigns the cast error
to err but never tests it (jsapi.go:557), so for a settable field of map
type receiving the JSON document 42 the cast error "cannot cast float64 to
map" is computed and then dropped, and the subsequent reflect Set call —
reached with the uncast value — panics instead of returning the
recoverable error. -/
theorem C4_prop_set_cast_error_dropped :
    (cast simpleR (SimpleVal.vNum 42 SimpleTy.sFloat64) SimpleTy.sMapT).2
      = some "cannot cast float64 to map" ∧
    prop.set simpleR
      { name := "M", v := SimpleVal.vNil, t := SimpleTy.sMapT, canSet := true } "42"
      = SetOutcome.panicked "reflect: Set using value of wrong type" SimpleVal.vNil ∧
    prop.set simpleR
      { name := "M", v := SimpleVal.vNil, t := SimpleTy.sMapT, canSet := true } "42"
      ≠ SetOutcome.err "cannot cast float64 to map" SimpleVal.vNil := by
  exact ⟨rfl, rfl, by decide⟩

/-- A valid Context whose sink holds only a fatal-bucket report. -/
def fatalCx : Context :=
  { ptr := some 7, o := 1, objs := [], funcs := [], Valid := true,
    errs := [("__fatal__", ⟨"__fatal__", 3, "boom"⟩)] }

/-- A valid Context whose sink holds a report under the eval key. -/
def evalErrCx : Context :=
  { ptr := some 7, o := 1, objs := [], funcs := [], Valid := true,
    errs := [("eval", ⟨"eval", 2, "oops"⟩)] }

/-- C2 (code evaluation at the failing inputs): the claim states that a
failing Exec/Eval returns the sink report under "eval", else the one under
"__fatal__", that the returned report is removed from the sink, and that
with neither present a generic "no error report found" error is returned.
On the code (a) the exact-key path does return and remove the report, but
(b) the fatal-bucket path returns the report while deleting under the eval
key — a key just found absent — so the fatal report stays in the sink and
is returned again by the next lookup, and (c) with an empty sink the
failing Exec returns the error interface wrapping the nil report pointer
(non-nil as an interface), so the generic-error line is dead code. -/
theorem C2_error_sink_bug :
    Context.getError evalErrCx "eval" = (some ⟨"eval", 2, "oops"⟩, []) ∧
    Context.getError fatalCx "eval"
      = (some ⟨"__fatal__", 3, "boom"⟩, [("__fatal__", ⟨"__fatal__", 3, "boom"⟩)]) ∧
    (Context.getError { fatalCx with errs := (Context.getError fatalCx "eval").2 }
        "eval").1 = some ⟨"__fatal__", 3, "boom"⟩ ∧
    Context.Exec validCx "1+1" false
      = DoOutcome.ok ([EngineOp.evalOp "eval"], some (GoErrVal.report none), validCx) ∧
    (some (GoErrVal.report none)
      ≠ some (GoErrVal.generic "Failed to exec javascript and no error report found")) := by
  exact ⟨rfl, rfl, rfl, rfl, by decide⟩

/-- A valid Context whose global function "f" answers "42". -/
def fCx : Context :=
  { ptr := some 7, o := 1, objs := [],
    funcs := [("f", { Name := "f", beh := fun _ => Except.ok "42" })],
    Valid := true, errs := [] }

/-- A world holding fCx registered under handle 7. -/
def fWorld : World := { contexts := [(7, fCx)] }

/-- C1 (code evaluation at the failing input): the claim states that
Destroy tears down the engine instance, marks the Context invalid, and
removes it from the live-context registry, so that every later engine
callback carrying the handle gets "attempt to use context after
destroyed".  On the code, Destroy does destroy the engine instance and
clear the flag, but contains no delete on the contexts registry, so after
Destroy the handle still resolves, the dispatch callback still finds the
function and dispatches into the destroyed context (returning status 1),
and the property callback gets past the registry check as well. -/
theorem C1_destroy_does_not_unregister :
    Context.Destroy fCx
      = DoOutcome.ok ([EngineOp.destroyContextOp], { fCx with Valid := false, ptr := none }) ∧
    (lookupA 7 (destroyWorld fWorld 7).contexts).isSome = true ∧
    (lookupA 7 (destroyWorld fWorld 7).contexts).map Context.Valid = some false ∧
    callback (destroyWorld fWorld 7) 7 1 "f" "[]" = (1, "42") ∧
    callback (destroyWorld fWorld 7) 7 1 "f" "[]"
      ≠ (0, "attempt to use context after destroyed") ∧
    getpropHead (destroyWorld fWorld 7) 7 5 "x"
      = some (0, "attempt to use object that doesn\x27t appear to exist") := by
  exact ⟨rfl, rfl, rfl, rfl, by decide, rfl⟩

/-- If some parameter kind in the list is unacceptable, the NewFunc
validation loop reports the panic message. -/
theorem checkInKinds_of_mem {k : GoKind} {l : List GoKind} (hm : k ∈ l)
    (hbad : acceptableKind k = false) :
    checkInKinds l = some "X is not a valid argument type for javascript interop" := by
  induction l with
  | nil => cases hm
  | cons a rest ih =>
    rcases List.mem_cons.mp hm with rfl | hmem
    · simp [checkInKinds, hbad]
    · by_cases ha : acceptableKind a
      · simp [checkInKinds, ha, ih hmem]
      · simp [checkInKinds, ha]

/-- C8: every definition-time error is raised immediately as a fatal panic
rather than returned as a recoverable error: binding a value that is not a
function, binding a callable with a parameter kind outside the acceptable
set, binding a proxy object that is neither a struct nor a pointer to a
struct, and a failed low-level engine define call (function definition or
property definition) all panic. -/
theorem C8_definition_time_panics :
    (∀ fsig : FunSig, fsig.isValid = false →
      NewFunc fsig = DoOutcome.panicked "invalid function type") ∧
    (∀ fsig : FunSig, fsig.isValid = true → fsig.kind ≠ GoKind.Func →
      NewFunc fsig = DoOutcome.panicked "X is not a valid function type") ∧
    (∀ (fsig : FunSig) (k : GoKind), fsig.isValid = true → fsig.kind = GoKind.Func →
      k ∈ fsig.inKinds → acceptableKind k = false →
      NewFunc fsig
        = DoOutcome.panicked "X is not a valid argument type for javascript interop") ∧
    (∀ (cx : Context) (name : String) (t : GoType) (newId : Nat) (ok1 : Bool),
      cx.Valid = true →
      (if GoType.kind t = GoKind.Ptr then derefType t else t).kind ≠ GoKind.Struct →
      Context.defineObject cx name (some t) newId ok1
        = DoOutcome.panicked "proxy object must be a kind of struct or pointer to a struct") ∧
    (∀ (cx : Context) (name : String) (fsig : FunSig) (f : FuncRec),
      cx.Valid = true → NewFunc fsig = DoOutcome.ok f →
      Context.defineFunction cx name fsig false
        = DoOutcome.panicked "failed to define function") ∧
    (∀ (cx : Context) (name fn : String) (fk : GoKind) (fs : List (String × GoKind))
      (newId : Nat), cx.Valid = true →
      Context.defineObject cx name (some (GoType.strukt ((fn, fk) :: fs))) newId false
        = DoOutcome.panicked "failed to define property") := by
  refine ⟨?_, ?_, ?_, ?_, ?_, ?_⟩
  · intro fsig h; simp [NewFunc, h]
  · intro fsig h1 h2; simp [NewFunc, h1, h2]
  · intro fsig k h1 h2 hm hbad
    simp [NewFunc, h1, h2, checkInKinds_of_mem hm hbad]
  · intro cx name t newId ok1 hvalid h
    simp [Context.defineObject, Context.doRun, hvalid, h]
  · intro cx name fsig f hvalid hNew
    simp [Context.defineFunction, hNew, Context.doRun, hvalid]
  · intro cx name fn fk fs newId hvalid
    simp [Context.defineObject, Context.doRun, hvalid, derefType, GoType.kind,
      GoType.fields, definePropsLoop]

/-- Witness for C8 at concrete inputs: a nil callable, an int non-callable,
a callable with a channel parameter, an int proxy, a failed engine function
definition and a failed engine property definition all panic with the
respective message. -/
theorem C8_definition_time_panics_witness :
    NewFunc { isValid := false, kind := GoKind.Func, inKinds := [] }
      = DoOutcome.panicked "invalid function type" ∧
    NewFunc { isValid := true, kind := GoKind.Int, inKinds := [] }
      = DoOutcome.panicked "X is not a valid function type" ∧
    NewFunc { isValid := true, kind := GoKind.Func, inKinds := [GoKind.Chan] }
      = DoOutcome.panicked "X is not a valid argument type for javascript interop" ∧
    Context.defineObject validCx "o" (some (GoType.base GoKind.Int)) 5 true
      = DoOutcome.panicked "proxy object must be a kind of struct or pointer to a struct" ∧
    Context.defineFunction validCx "f"
      { isValid := true, kind := GoKind.Func, inKinds := [GoKind.Int] } false
      = DoOutcome.panicked "failed to define function" ∧
    Context.defineObject validCx "p" (some (GoType.strukt [("Name", GoKind.String)])) 5 false
      = DoOutcome.panicked "failed to define property" := by
  have h := C8_definition_time_panics
  refine ⟨h.1 _ rfl, h.2.1 _ rfl (by decide), ?_, ?_, ?_, ?_⟩
  · exact h.2.2.1 { isValid := true, kind := GoKind.Func, inKinds := [GoKind.Chan] }
      GoKind.Chan rfl rfl (by decide) rfl
  · exact h.2.2.2.1 validCx "o" (GoType.base GoKind.Int) 5 true rfl (by decide)
  · exact h.2.2.2.2.1 validCx "f" { isValid := true, kind := GoKind.Func, inKinds := [GoKind.Int] }
      { Name := "[anon]", sig := { isValid := true, kind := GoKind.Func, inKinds := [GoKind.Int] } }
      rfl rfl
  · exact h.2.2.2.2.2 validCx "p" "Name" GoKind.String [] 5 rfl

/-- C9: every host-side operation that submits work to the engine through a
Context (Exec, Eval, ExecFrom, ExecFile, DefineObject, DefineFunction)
panics with the fatal "attempt to do a destroyed Context" error when the
Context has been invalidated, before any work reaches the engine
(DoOutcome.panicked carries no engine operations); and while the Context is
valid the fatal branch in Context.do is unreachable — the guard passes the
submitted work through unchanged, and a failing Exec still completes as an
ordinary return. -/
theorem C9_invalid_context_panics :
    (∀ (cx : Context) (src : String) (engineOK : Bool), cx.Valid = false →
      Context.Exec cx src engineOK
        = DoOutcome.panicked "attempt to do a destroyed Context") ∧
    (∀ (cx : Context) (src : String) (er : Option String) (de : Option String),
      cx.Valid = false →
      Context.Eval cx src er de = DoOutcome.panicked "attempt to do a destroyed Context") ∧
    (∀ (cx : Context) (s : String) (engineOK : Bool), cx.Valid = false →
      Context.ExecFrom cx (Except.ok s) engineOK
        = DoOutcome.panicked "attempt to do a destroyed Context") ∧
    (∀ (cx : Context) (content : String) (engineOK : Bool), cx.Valid = false →
      Context.ExecFile cx (Except.ok ()) (Except.ok content) engineOK
        = DoOutcome.panicked "attempt to do a destroyed Context") ∧
    (∀ (cx : Context) (name : String) (proxy : Option GoType) (newId : Nat) (ok1 : Bool),
      cx.Valid = false →
      Context.DefineObject cx name proxy newId ok1
        = DoOutcome.panicked "attempt to do a destroyed Context") ∧
    (∀ (cx : Context) (name : String) (fsig : FunSig) (beh : String → Except String String)
      (ok1 : Bool) (f : FuncRec), cx.Valid = false → NewFunc fsig = DoOutcome.ok f →
      Context.DefineFunction cx name fsig beh ok1
        = DoOutcome.panicked "attempt to do a destroyed Context") ∧
    (∀ {α : Type u} (cx : Context) (work : DoOutcome α), cx.Valid = true →
      Context.doRun cx work = work) ∧
    (∀ (cx : Context) (src : String) (engineOK : Bool), cx.Valid = true →
      ∃ r, Context.Exec cx src engineOK = DoOutcome.ok r) := by
  refine ⟨?_, ?_, ?_, ?_, ?_, ?_, ?_, ?_⟩
  · intro cx src engineOK h; simp [Context.Exec, Context.doRun, h]
  · intro cx src er de h; simp [Context.Eval, Context.doRun, h]
  · intro cx s engineOK h; simp [Context.ExecFrom, Context.Exec, Context.doRun, h]
  · intro cx content engineOK h
    simp [Context.ExecFile, Context.ExecFrom, Context.Exec, Context.doRun, h]
  · intro cx name proxy newId ok1 h
    simp [Context.DefineObject, Context.defineObject, Context.doRun, h]
  · intro cx name fsig beh ok1 f h hNew
    simp [Context.DefineFunction, Context.defineFunction, hNew, Context.doRun, h]
  · intro α cx work h; simp [Context.doRun, h]
  · intro cx src engineOK h
    cases engineOK with
    | true =>
      exact ⟨([EngineOp.evalOp "eval"], none, cx), by simp [Context.Exec, Context.doRun, h]⟩
    | false =>
      exact ⟨([EngineOp.evalOp "eval"], some (GoErrVal.report (Context.getError cx "eval").1),
        { cx with errs := (Context.getError cx "eval").2 }),
        by simp [Context.Exec, Context.doRun, h]⟩

/-- Witness for C9: each operation on a concrete invalidated Context panics
with the destroyed-Context message, and the guard passes work through on a
concrete valid Context. -/
theorem C9_invalid_context_panics_witness :
    Context.Exec invalidCx "1" true = DoOutcome.panicked "attempt to do a destroyed Context" ∧
    Context.Eval invalidCx "1" (some "2") none
      = DoOutcome.panicked "attempt to do a destroyed Context" ∧
    Context.ExecFrom invalidCx (Except.ok "1") true
      = DoOutcome.panicked "attempt to do a destroyed Context" ∧
    Context.ExecFile invalidCx (Except.ok ()) (Except.ok "1") true
      = DoOutcome.panicked "attempt to do a destroyed Context" ∧
    Context.DefineObject invalidCx "o" none 5 true
      = DoOutcome.panicked "attempt to do a destroyed Context" ∧
    Context.DefineFunction invalidCx "f"
      { isValid := true, kind := GoKind.Func, inKinds := [] } (fun _ => Except.ok "") true
      = DoOutcome.panicked "attempt to do a destroyed Context" ∧
    Context.doRun validCx (DoOutcome.ok (0 : Nat)) = DoOutcome.ok 0 := by
  have h := C9_invalid_context_panics
  refine ⟨h.1 _ _ _ rfl, h.2.1 _ _ _ _ rfl, h.2.2.1 _ _ _ rfl, h.2.2.2.1 _ _ _ rfl,
    h.2.2.2.2.1 _ _ _ _ _ rfl, ?_, h.2.2.2.2.2.2.1 validCx (DoOutcome.ok 0) rfl⟩
  exact h.2.2.2.2.2.1 invalidCx "f" { isValid := true, kind := GoKind.Func, inKinds := [] }
    (fun _ => Except.ok "") true
    { Name := "[anon]", sig := { isValid := true, kind := GoKind.Func, inKinds := [] } }
    rfl rfl

/-- C10: Destroy on a Context whose Valid flag is already false is a no-op:
it does not panic, submits no work to the executor (no engine operations),
and leaves the Context state — validity flag, engine pointer and the
registries it owns — unchanged. -/
theorem C10_destroy_idempotent (cx : Context) (h : cx.Valid = false) :
    Context.Destroy cx = DoOutcome.ok ([], cx) ∧ destroyedCtx cx = cx := by
  constructor
  · simp [Context.Destroy, h]
  · simp [destroyedCtx, Context.Destroy, h]

/-- Witness for C10 at a concrete invalidated Context. -/
theorem C10_destroy_idempotent_witness :
    Context.Destroy invalidCx = DoOutcome.ok ([], invalidCx) ∧
    destroyedCtx invalidCx = invalidCx :=
  C10_destroy_idempotent invalidCx rfl

end Jsapi
